import Mathlib

/-!
Verification development for the pdftrans pipeline core
(src/state.rs, src/translate.rs, src/main.rs, src/pdf.rs).

The Rust code is shallowly embedded: pure fragments become Lean
functions, the task registry becomes explicit state passing over a
`TaskData` record, the per-page checkpoint store becomes a map
`Nat → Option String`, timestamps (`now_ms`) and random jitter draws
become explicit parameters, and the retry loop over attempts becomes
structural recursion over the attempt-index list `List.range (maxR+1)`.
-/

namespace PdfTrans

/-! ## Task registry data model (src/state.rs) -/

/-- `MAX_CONCURRENT_TASKS` (state.rs line 15). -/
def MAX_CONCURRENT_TASKS : Nat := 1

/-- `MAX_LOGS` (state.rs line 16). -/
def MAX_LOGS : Nat := 50

/-- `TaskStatus` (state.rs lines 18-25). -/
inductive TaskStatus where
  | Rendering
  | Processing
  | Generating
  | Complete
  | Error
deriving DecidableEq, Repr

/-- `LogEntry` (state.rs lines 27-31). -/
structure LogEntry where
  ts : Nat
  msg : String
deriving DecidableEq, Repr

/-- `PageSummary` (state.rs lines 33-46). -/
structure PageSummary where
  page_num : Nat := 0
  ocr_started : Option Nat := none
  ocr_duration_ms : Option Nat := none
  ocr_chars : Option Nat := none
  ocr_text_preview : Option String := none
  translate_started : Option Nat := none
  translate_duration_ms : Option Nat := none
  translated_chars : Option Nat := none
  translated_text_preview : Option String := none
  status : String := ""
  error : Option String := none
deriving DecidableEq, Repr

/-- `TaskProgress` (state.rs lines 48-59). -/
structure TaskProgress where
  status : TaskStatus
  total_pages : Nat
  ocr_done : Nat
  translate_done : Nat
  message : String
  overall_percent : Nat
  filename : String
  logs : List LogEntry
  page_summaries : List PageSummary
deriving DecidableEq, Repr

/-- `TaskProgress::is_done` (state.rs lines 62-64). -/
def TaskProgress.is_done (p : TaskProgress) : Bool :=
  p.status = TaskStatus.Complete ∨ p.status = TaskStatus.Error

/-- `TaskData` (state.rs lines 78-84); `pdf_data: Option<Arc<Vec<u8>>>`
is a byte list here. -/
structure TaskData where
  progress : TaskProgress
  pdf_data : Option (List Nat)
  cancelled : Bool
  started_at : Nat
  is_retrying : Bool
deriving DecidableEq, Repr

/-- One task's slot in the registry map: `none` models an unknown id
(every setter is a no-op then, state.rs `if let Some(task) = ...`). -/
def Registry : Type := Option TaskData

/-- `create_task` (state.rs lines 240-260); `now_ms()` is the explicit
parameter `t`. -/
def create_task (filename : String) (t : Nat) : TaskData :=
  { progress :=
      { status := TaskStatus.Rendering
        total_pages := 0
        ocr_done := 0
        translate_done := 0
        message := "正在处理 PDF..."
        overall_percent := 0
        filename := filename
        logs := [{ ts := t, msg := "任务开始" }]
        page_summaries := [] }
    pdf_data := none
    cancelled := false
    started_at := t
    is_retrying := false }

/-- `cancel_task` (state.rs lines 262-273); returns the flag the route
handler sees together with the updated registry slot. -/
def cancel_task (reg : Registry) (t : Nat) : Bool × Registry :=
  match reg with
  | none => (false, none)
  | some task =>
    if task.progress.is_done then (false, some task)
    else
      (true, some { task with
        cancelled := true
        progress := { task.progress with
          status := TaskStatus.Error
          message := "任务已取消"
          logs := task.progress.logs ++ [{ ts := t, msg := "任务取消" }] } })

/-- `is_cancelled` (state.rs lines 275-277). -/
def is_cancelled (reg : Registry) : Bool :=
  match reg with
  | none => false
  | some task => task.cancelled

/-- `set_rendering` (state.rs lines 279-295). -/
def set_rendering (reg : Registry) (total_pages t : Nat) : Registry :=
  match reg with
  | none => none
  | some task =>
    some { task with progress := { task.progress with
      status := TaskStatus.Rendering
      total_pages := total_pages
      overall_percent := 5
      message := "共 " ++ toString total_pages ++ " 页，开始并行处理..."
      logs := task.progress.logs ++
        [{ ts := t, msg := "渲染完成，共 " ++ toString total_pages ++ " 页" }]
      page_summaries := (List.range' 1 total_pages).map fun i =>
        { page_num := i, status := "pending" } } }

/-- `set_processing` (state.rs lines 297-303). -/
def set_processing (reg : Registry) (t : Nat) : Registry :=
  match reg with
  | none => none
  | some task =>
    some { task with progress := { task.progress with
      status := TaskStatus.Processing
      message := "并行处理中..."
      logs := task.progress.logs ++ [{ ts := t, msg := "开始并行 OCR + 翻译" }] } }

/-- `update_progress` (state.rs lines 305-318). The source computes the
percentage in `f32`; no claim depends on the numeric value, so the
rounding of `(5.0 + ocr_pct + trans_pct) as u8` is approximated with
Nat division. -/
def update_progress (task : TaskData) : TaskData :=
  let total := task.progress.total_pages
  if total = 0 then task
  else
    let ocr := task.progress.ocr_done
    let trans := task.progress.translate_done
    { task with progress := { task.progress with
        overall_percent := 5 + ocr * 45 / total + trans * 45 / total
        message := "OCR: " ++ toString ocr ++ "/" ++ toString total ++
                   ", 翻译: " ++ toString trans ++ "/" ++ toString total } }

/-- `set_generating` (state.rs lines 320-327). -/
def set_generating (reg : Registry) (t : Nat) : Registry :=
  match reg with
  | none => none
  | some task =>
    some { task with progress := { task.progress with
      status := TaskStatus.Generating
      overall_percent := 95
      message := "正在生成 PDF..."
      logs := task.progress.logs ++ [{ ts := t, msg := "开始生成 PDF" }] } }

/-- `set_complete` (state.rs lines 329-338). -/
def set_complete (reg : Registry) (pdf : List Nat) (t : Nat) : Registry :=
  match reg with
  | none => none
  | some task =>
    let elapsed := (t - task.started_at) / 1000
    some { task with
      pdf_data := some pdf
      progress := { task.progress with
        status := TaskStatus.Complete
        overall_percent := 100
        message := "完成！用时 " ++ toString elapsed ++ " 秒"
        logs := task.progress.logs ++
          [{ ts := t, msg := "完成，用时 " ++ toString elapsed ++ " 秒" }] } }

/-- `set_error` (state.rs lines 340-346). -/
def set_error (reg : Registry) (error : String) (t : Nat) : Registry :=
  match reg with
  | none => none
  | some task =>
    some { task with progress := { task.progress with
      status := TaskStatus.Error
      message := error
      logs := task.progress.logs ++ [{ ts := t, msg := "错误: " ++ error }] } }

/-- `add_log` (state.rs lines 348-355): push, then `remove(0)` (evict
the oldest entry) when the length exceeds `MAX_LOGS`. -/
def add_log (reg : Registry) (msg : String) (t : Nat) : Registry :=
  match reg with
  | none => none
  | some task =>
    let pushed := task.progress.logs ++ [{ ts := t, msg := msg }]
    let logs := if pushed.length > MAX_LOGS then pushed.drop 1 else pushed
    some { task with progress := { task.progress with logs := logs } }

/-- `get_pdf_data` (state.rs lines 419-421). -/
def get_pdf_data (reg : Registry) : Option (List Nat) :=
  match reg with
  | none => none
  | some task => task.pdf_data

/-- Rust `Vec::get_mut(i)` followed by a field update: out-of-bounds
indices leave the list unchanged. -/
def modifyPS (l : List PageSummary) (i : Nat) (f : PageSummary → PageSummary) :
    List PageSummary :=
  match l.get? i with
  | none => l
  | some ps => l.set i (f ps)

/-- `start_page_ocr` (state.rs lines 357-365). -/
def start_page_ocr (reg : Registry) (page_num t : Nat) : Registry :=
  match reg with
  | none => none
  | some task =>
    some { task with progress := { task.progress with
      page_summaries := modifyPS task.progress.page_summaries (page_num - 1)
        fun ps => { ps with ocr_started := some t, status := "ocr", error := none } } }

/-- `finish_page_ocr` (state.rs lines 367-379). -/
def finish_page_ocr (reg : Registry) (page_num char_count : Nat)
    (text_preview : String) (t : Nat) : Registry :=
  match reg with
  | none => none
  | some task =>
    let task := { task with progress := { task.progress with
      ocr_done := task.progress.ocr_done + 1
      page_summaries := modifyPS task.progress.page_summaries (page_num - 1)
        fun ps => { ps with
          ocr_duration_ms := ps.ocr_started.map fun started => t - started
          ocr_chars := some char_count
          ocr_text_preview := some text_preview } } }
    some (update_progress task)

/-- `start_page_translate` (state.rs lines 381-388). -/
def start_page_translate (reg : Registry) (page_num t : Nat) : Registry :=
  match reg with
  | none => none
  | some task =>
    some { task with progress := { task.progress with
      page_summaries := modifyPS task.progress.page_summaries (page_num - 1)
        fun ps => { ps with translate_started := some t, status := "translating" } } }

/-- `finish_page_translate` (state.rs lines 390-404). -/
def finish_page_translate (reg : Registry) (page_num char_count : Nat)
    (text_preview : String) (t : Nat) : Registry :=
  match reg with
  | none => none
  | some task =>
    let task := { task with progress := { task.progress with
      translate_done := task.progress.translate_done + 1
      page_summaries := modifyPS task.progress.page_summaries (page_num - 1)
        fun ps => { ps with
          translate_duration_ms := ps.translate_started.map fun started => t - started
          translated_chars := some char_count
          translated_text_preview := some text_preview
          status := "done"
          error := none } } }
    some (update_progress task)

/-- `set_page_error` (state.rs lines 406-413). -/
def set_page_error (reg : Registry) (page_num : Nat) (error : String) : Registry :=
  match reg with
  | none => none
  | some task =>
    some { task with progress := { task.progress with
      page_summaries := modifyPS task.progress.page_summaries (page_num - 1)
        fun ps => { ps with status := "error", error := some error } } }

/-- `try_start_retry` (state.rs lines 451-470): checks `Error` status,
the cancelled flag and the retrying flag in that order; only on success
does it mutate the task. -/
def try_start_retry (reg : Registry) (t : Nat) : Except String Unit × Registry :=
  match reg with
  | none => (Except.error "任务不存在", none)
  | some task =>
    if task.progress.status ≠ TaskStatus.Error then
      (Except.error "只能重试失败的任务", some task)
    else if task.cancelled then
      (Except.error "已取消的任务不能重试", some task)
    else if task.is_retrying then
      (Except.error "任务正在重试中", some task)
    else
      (Except.ok (), some { task with
        is_retrying := true
        progress := { task.progress with
          status := TaskStatus.Processing
          message := "重试中..."
          logs := task.progress.logs ++ [{ ts := t, msg := "开始重试" }] } })

/-- `finish_retry` (state.rs lines 472-476). -/
def finish_retry (reg : Registry) : Registry :=
  match reg with
  | none => none
  | some task => some { task with is_retrying := false }

/-- `init_retry_progress` (state.rs lines 478-485). -/
def init_retry_progress (reg : Registry) (completed_count total_pages : Nat) : Registry :=
  match reg with
  | none => none
  | some task =>
    let task := { task with progress := { task.progress with
      translate_done := completed_count
      ocr_done := completed_count
      total_pages := total_pages } }
    some (update_progress task)

/-! ## Registry operation sequences

Every mutating registry method, as an explicit operation; `apply` runs
one operation against a task's registry slot.  `create_task` performs
`HashMap::insert`, replacing whatever was stored under the id. -/

inductive RegOp where
  | create (filename : String) (t : Nat)
  | cancel (t : Nat)
  | setRendering (total_pages t : Nat)
  | setProcessing (t : Nat)
  | setGenerating (t : Nat)
  | setComplete (pdf : List Nat) (t : Nat)
  | setError (msg : String) (t : Nat)
  | addLog (msg : String) (t : Nat)
  | startPageOcr (page_num t : Nat)
  | finishPageOcr (page_num char_count : Nat) (preview : String) (t : Nat)
  | startPageTranslate (page_num t : Nat)
  | finishPageTranslate (page_num char_count : Nat) (preview : String) (t : Nat)
  | setPageError (page_num : Nat) (msg : String)
  | tryStartRetry (t : Nat)
  | finishRetry
  | initRetryProgress (completed total : Nat)
deriving DecidableEq, Repr

def RegOp.apply (op : RegOp) (reg : Registry) : Registry :=
  match op with
  | .create filename t => some (create_task filename t)
  | .cancel t => (cancel_task reg t).2
  | .setRendering n t => set_rendering reg n t
  | .setProcessing t => set_processing reg t
  | .setGenerating t => set_generating reg t
  | .setComplete pdf t => set_complete reg pdf t
  | .setError msg t => set_error reg msg t
  | .addLog msg t => add_log reg msg t
  | .startPageOcr n t => start_page_ocr reg n t
  | .finishPageOcr n c p t => finish_page_ocr reg n c p t
  | .startPageTranslate n t => start_page_translate reg n t
  | .finishPageTranslate n c p t => finish_page_translate reg n c p t
  | .setPageError n m => set_page_error reg n m
  | .tryStartRetry t => (try_start_retry reg t).2
  | .finishRetry => finish_retry reg
  | .initRetryProgress c n => init_retry_progress reg c n

/-- Run a sequence of registry operations left to right. -/
def applyOps (ops : List RegOp) (reg : Registry) : Registry :=
  ops.foldl (fun r op => op.apply r) reg

/-! ## Admission slots (src/state.rs lines 212-233)

`try_acquire_task_slot` is a CAS loop whose only effect, under the
atomicity the loop establishes, is: increment the counter and return
`true` when it is strictly below the ceiling, else return `false` and
leave it unchanged.  `release_task_slot` is `fetch_sub(1)`. -/

def try_acquire_task_slot (count : Nat) : Bool × Nat :=
  if count < MAX_CONCURRENT_TASKS then (true, count + 1) else (false, count)

def release_task_slot (count : Nat) : Nat :=
  count - 1

/-! ## Resilient call layer (src/translate.rs lines 188-229)

`with_retry` loops `for attempt in 0..=max_retries`; the loop is
embedded as structural recursion over `List.range (max_retries + 1)`,
with the empty-list case standing for the `unreachable!()` after the
loop.  The outcome of each attempt is a function of the attempt index,
and the uniform jitter draw `rng.random_range(0..=jitter_range*2)` is
an explicit function `jit` of the attempt index.  Alongside the result
the model records the list of slept delays and the list of attempt
indices actually invoked. -/

/-- `ApiError` (translate.rs lines 157-161) extended with the `Ok`
outcome of one attempt of the wrapped operation. -/
inductive ApiAttempt (T : Type) where
  | ok (t : T)
  | retryable (msg : String)
  | nonRetryable (msg : String)
deriving DecidableEq, Repr

/-- `base_delays` (translate.rs line 197). -/
def base_delays : List Nat := [1000, 2000, 4000]

/-- `base_delays.get(attempt).copied().unwrap_or(4000)` (line 210). -/
def base_delay_of (attempt : Nat) : Nat :=
  base_delays.getD attempt 4000

/-- `(base_delay as f64 * 0.1) as u64` (line 213): exact for the three
base values (100, 200, 400), i.e. `base / 10`. -/
def jitter_range_of (attempt : Nat) : Nat :=
  base_delay_of attempt / 10

/-- `(base_delay as i64 + jitter).max(100) as u64` (lines 214-216)
where `jitter = draw - jitter_range` and `draw` is the uniform sample
in `0..=jitter_range*2`. -/
def delay_ms (attempt draw : Nat) : Nat :=
  (max ((base_delay_of attempt : Int) + draw - jitter_range_of attempt) 100).toNat

/-- The `for attempt in 0..=max_retries` body (translate.rs lines
199-226), recursing over the remaining attempt indices.  Returns
(result, slept delays in order, attempt indices invoked in order). -/
def withRetryGo {T : Type} (f : Nat → ApiAttempt T) (jit : Nat → Nat)
    (max_retries : Nat) : List Nat → Except String T × List Nat × List Nat
  | [] => (Except.error "unreachable", [], [])
  | attempt :: rest =>
    match f attempt with
    | .ok t => (Except.ok t, [], [attempt])
    | .nonRetryable msg => (Except.error msg, [], [attempt])
    | .retryable msg =>
      if attempt = max_retries then
        (Except.error (msg ++ " (已重试 " ++ toString max_retries ++ " 次)"),
          [], [attempt])
      else
        let r := withRetryGo f jit max_retries rest
        (r.1, delay_ms attempt (jit attempt) :: r.2.1, attempt :: r.2.2)

/-- `with_retry` (translate.rs lines 188-229). -/
def with_retry {T : Type} (f : Nat → ApiAttempt T) (jit : Nat → Nat)
    (max_retries : Nat) : Except String T × List Nat × List Nat :=
  withRetryGo f jit max_retries (List.range (max_retries + 1))

/-! ## Translation front-end (src/translate.rs lines 107-155) -/

/-- `count_chinese_chars` (translate.rs lines 146-155). -/
def count_chinese_chars (text : String) : Nat :=
  (text.data.filter fun c =>
    let code := c.toNat
    (0x4E00 ≤ code ∧ code ≤ 0x9FFF) ∨
    (0x3400 ≤ code ∧ code ≤ 0x4DBF) ∨
    (0x20000 ≤ code ∧ code ≤ 0x2A6DF)).length

/-- Rust `char::is_whitespace`: the Unicode White_Space property. -/
def rust_is_whitespace (c : Char) : Bool :=
  let n := c.toNat
  n = 0x9 ∨ n = 0xA ∨ n = 0xB ∨ n = 0xC ∨ n = 0xD ∨ n = 0x20 ∨
  n = 0x85 ∨ n = 0xA0 ∨ n = 0x1680 ∨ (0x2000 ≤ n ∧ n ≤ 0x200A) ∨
  n = 0x2028 ∨ n = 0x2029 ∨ n = 0x202F ∨ n = 0x205F ∨ n = 0x3000

/-- Rust `str::trim`: strip leading and trailing Unicode whitespace. -/
def rust_trim (s : String) : String :=
  String.mk (((s.data.dropWhile rust_is_whitespace).reverse.dropWhile
    rust_is_whitespace).reverse)

/-- `trimmed.chars().count().max(1)` (translate.rs line 114). -/
def ratio_denominator (trimmed : String) : Nat :=
  max trimmed.data.length 1

/-- `chinese_ratio > 0.7` (translate.rs lines 114-115).  The source
compares `f32` quotients; the comparison is embedded exactly as the
rational inequality `count / denom > 7/10`, i.e. `10*count > 7*denom`,
which agrees with the `f32` evaluation for every text whose length is
below the `f32` precision horizon. -/
def chinese_ratio_exceeds (trimmed : String) : Bool :=
  10 * count_chinese_chars trimmed > 7 * ratio_denominator trimmed

/-- What `translate_text` (translate.rs lines 107-142) does before or
instead of the network: `noCall s` means it returns `Ok s` with no
external call and no retry; `callApi r` means it reaches
`with_retry(.., r, ..)` around the API call. -/
inductive TranslateAction where
  | noCall (result : String)
  | callApi (max_retries : Nat)
deriving DecidableEq, Repr

/-- `translate_text` (translate.rs lines 107-142), up to the choice of
performing the external call: empty trimmed input short-circuits to
`Ok("")`; a Chinese-character ratio above 0.7 short-circuits to the
unmodified input; otherwise `with_retry(call_api_inner, 3, ..)` runs. -/
def translate_text (text : String) : TranslateAction :=
  let trimmed := rust_trim text
  if trimmed.isEmpty then TranslateAction.noCall ""
  else if chinese_ratio_exceeds trimmed then TranslateAction.noCall text
  else TranslateAction.callApi 3

/-- `recognize_text` (translate.rs lines 74-104) always reaches
`with_retry(call_api_inner, 3, ..)`. -/
def recognize_text : TranslateAction :=
  TranslateAction.callApi 3

/-! ## Checkpoint store and retry scheduling (src/state.rs lines
150-172, src/main.rs lines 408-458)

The per-task checkpoint directory is a map from page number to the
stored translated text (`none` = file absent, `load_page_translated`
returns `None`).  `process_pdf_pages` (pdf.rs lines 15-69) numbers its
output pages `1..=page_count` in order. -/

/-- `PdfPage` (pdf.rs lines 7-11). -/
structure PdfPage where
  page_num : Nat
  image_base64 : Option String
  extracted_text : Option String
deriving DecidableEq, Repr

/-- A task's translated-checkpoint store: page number ↦ stored text. -/
def Store : Type := Nat → Option String

/-- `load_page_translated` (state.rs lines 150-153) against the store. -/
def load_page_translated (store : Store) (page_num : Nat) : Option String :=
  store page_num

/-- `load_all_translated_pages` (state.rs lines 168-172). -/
def load_all_translated_pages (store : Store) (total_pages : Nat) : List String :=
  (List.range' 1 total_pages).map fun i => (load_page_translated store i).getD ""

/-- `save_page_translated` (state.rs lines 135-143) against the store:
the atomic write-temp-then-rename ends with the text stored whole. -/
def save_page_translated (store : Store) (page_num : Nat) (text : String) : Store :=
  fun p => if p = page_num then some text else store p

/-- The retry path's pending-page filter (main.rs lines 432-434):
keep exactly the pages whose translated checkpoint is absent. -/
def pending_pages (store : Store) (pages : List PdfPage) : List PdfPage :=
  pages.filter fun p => (load_page_translated store p.page_num).isNone

/-- Effect on the checkpoint store of a scheduler run over the given
pages (main.rs lines 300-307): each scheduled page, and no other, has
its translated text written via `save_page_translated`. -/
def run_scheduler_store (store : Store) (tr : Nat → String)
    (scheduled : List PdfPage) : Store :=
  scheduled.foldl (fun st p => save_page_translated st p.page_num (tr p.page_num)) store

/-! ## Scheduler units (src/main.rs lines 208-248 and 286-315)

One spawned unit of a batch, modelled at the granularity of its
cancellation check: the unit reads the task's cancelled flag once (its
`state.is_cancelled` guard) and only then may reach the external call.
The Bool in the result records whether the external
recognition/translation entry point was reached. -/

/-- One OCR unit (main.rs lines 214-248).  `recog` stands for
`translate::recognize_text` applied to the page image. -/
def ocr_unit (cancelled : Bool) (page : PdfPage)
    (recog : String → Except String String) :
    Except String (Nat × String) × Bool :=
  if cancelled then (Except.error "任务已取消", false)
  else
    match page.image_base64 with
    | some img =>
      match recog img with
      | Except.ok t => (Except.ok (page.page_num, t), true)
      | Except.error e =>
        (Except.error ("第 " ++ toString page.page_num ++ " 页 OCR 失败: " ++ e), true)
    | none =>
      match page.extracted_text with
      | some extracted => (Except.ok (page.page_num, extracted), false)
      | none => (Except.ok (page.page_num, ""), false)

/-- One translation unit (main.rs lines 292-314).  `trans` stands for
`translate::translate_text` applied to the recognized text. -/
def translate_unit (cancelled : Bool) (page_num : Nat) (text : String)
    (trans : String → Except String String) :
    Except String (Nat × String) × Bool :=
  if cancelled then (Except.error "任务已取消", false)
  else
    match trans text with
    | Except.ok translated => (Except.ok (page_num, translated), true)
    | Except.error e =>
      (Except.error ("第 " ++ toString page_num ++ " 页翻译失败: " ++ e), true)

/-! ## Observers on a registry slot -/

def get_status (reg : Registry) : Option TaskStatus :=
  match reg with
  | none => none
  | some task => some task.progress.status

def get_cancelled (reg : Registry) : Option Bool :=
  match reg with
  | none => none
  | some task => some task.cancelled

def log_count (reg : Registry) : Option Nat :=
  match reg with
  | none => none
  | some task => some task.progress.logs.length

def get_is_retrying (reg : Registry) : Option Bool :=
  match reg with
  | none => none
  | some task => some task.is_retrying

/-! ## Concrete instances used to evaluate the theorems -/

/-- A failed task eligible for retry. -/
def c2task : TaskData :=
  { progress :=
      { status := TaskStatus.Error, total_pages := 2, ocr_done := 1
        translate_done := 1, message := "boom", overall_percent := 50
        filename := "a.pdf", logs := [], page_summaries := [] }
    pdf_data := none, cancelled := false, started_at := 0, is_retrying := false }

/-- A cancelled task mid-processing. -/
def c6task : TaskData :=
  { progress :=
      { status := TaskStatus.Error, total_pages := 2, ocr_done := 0
        translate_done := 0, message := "任务已取消", overall_percent := 5
        filename := "a.pdf", logs := [], page_summaries := [] }
    pdf_data := none, cancelled := true, started_at := 0, is_retrying := false }

def c6page : PdfPage := { page_num := 1, image_base64 := some "aW1n", extracted_text := none }

def c6recog : String → Except String String := fun _ => Except.ok "text"

def c6trans : String → Except String String := fun _ => Except.ok "译文"

/-- A task whose log sits exactly at the cap. -/
def c8task : TaskData :=
  { progress :=
      { status := TaskStatus.Processing, total_pages := 2, ocr_done := 0
        translate_done := 0, message := "", overall_percent := 5
        filename := "a.pdf", logs := List.replicate MAX_LOGS { ts := 0, msg := "x" }
        page_summaries := [] }
    pdf_data := none, cancelled := false, started_at := 0, is_retrying := false }

def c3f : Nat → ApiAttempt Unit := fun _ => ApiAttempt.retryable "网络错误"

def c3jit : Nat → Nat := jitter_range_of

def c4f : Nat → ApiAttempt Unit := fun n =>
  if n = 0 then ApiAttempt.retryable "超时" else ApiAttempt.nonRetryable "解析失败"

def c4jit : Nat → Nat := fun _ => 0

def c1store : Store := fun p => if p = 1 then some "第一页" else none

def c1pages : List PdfPage :=
  [{ page_num := 1, image_base64 := none, extracted_text := none },
   { page_num := 2, image_base64 := none, extracted_text := none },
   { page_num := 3, image_base64 := none, extracted_text := none }]

def c1tr : Nat → String := fun _ => "译"

def c10store : Store := fun p => if p = 1 then some "甲" else none

/-! # Theorems -/

/-- C2: `try_start_retry` succeeds if and only if the task exists with
status exactly `Error`, its cancelled flag false, and its retrying flag
unset; on success it sets the retrying flag and transitions the status
to `Processing`; in every other case it returns a descriptive
(non-empty) error message and leaves the stored task state unchanged. -/
theorem try_start_retry_iff (reg : Registry) (t : Nat) :
    ((try_start_retry reg t).1 = Except.ok () ↔
      ∃ task, reg = some task ∧ task.progress.status = TaskStatus.Error ∧
        task.cancelled = false ∧ task.is_retrying = false) ∧
    ((try_start_retry reg t).1 = Except.ok () →
      get_is_retrying (try_start_retry reg t).2 = some true ∧
      get_status (try_start_retry reg t).2 = some TaskStatus.Processing) ∧
    ((try_start_retry reg t).1 ≠ Except.ok () → (try_start_retry reg t).2 = reg) ∧
    (∀ msg, (try_start_retry reg t).1 = Except.error msg → msg ≠ "") := by
  cases reg with
  | none =>
    refine ⟨?_, ?_, ?_, ?_⟩ <;> simp [try_start_retry]
  | some task =>
    have hchar :
        (try_start_retry (some task) t).1 = Except.ok () ↔
          task.progress.status = TaskStatus.Error ∧ task.cancelled = false ∧
            task.is_retrying = false := by
      simp only [try_start_retry, ne_eq]
      split_ifs with h1 h2 h3 <;> simp_all
    refine ⟨?_, ?_, ?_, ?_⟩
    · rw [hchar]
      constructor
      · rintro ⟨hs, hc, hr⟩
        exact ⟨task, rfl, hs, hc, hr⟩
      · rintro ⟨x, hx, hs, hc, hr⟩
        cases Option.some.inj hx
        exact ⟨hs, hc, hr⟩
    · intro hok
      rcases hchar.mp hok with ⟨h1, h2, h3⟩
      simp only [try_start_retry, ne_eq]
      rw [if_neg (by simp [h1]), if_neg (by simp [h2]), if_neg (by simp [h3])]
      exact ⟨rfl, rfl⟩
    · intro hne
      by_cases h1 : task.progress.status = TaskStatus.Error
      · by_cases h2 : task.cancelled
        · simp [try_start_retry, h1, h2]
        · by_cases h3 : task.is_retrying
          · simp [try_start_retry, h1, h2, h3]
          · exact absurd (hchar.mpr ⟨h1, by simp_all, by simp_all⟩) hne
      · simp [try_start_retry, h1]
    · intro msg hmsg
      simp only [try_start_retry, ne_eq] at hmsg
      split_ifs at hmsg <;> simp_all <;> (subst hmsg; decide)

/-- Evaluation of `try_start_retry_iff` on a concrete eligible task. -/
theorem try_start_retry_iff_witness :
    (try_start_retry (some c2task) 7).1 = Except.ok () :=
  (try_start_retry_iff (some c2task) 7).1.mpr ⟨c2task, rfl, rfl, rfl, rfl⟩

/-- C5: `try_acquire_task_slot` returns true and increments the count
iff the count is strictly below `MAX_CONCURRENT_TASKS`; at the ceiling
it returns false and leaves the count unchanged; the acquisition that
would exceed the ceiling is rejected and succeeds again after
`release_task_slot`. -/
theorem try_acquire_task_slot_ceiling (c : Nat) :
    ((try_acquire_task_slot c).1 = true ↔ c < MAX_CONCURRENT_TASKS) ∧
    ((try_acquire_task_slot c).1 = true → (try_acquire_task_slot c).2 = c + 1) ∧
    ((try_acquire_task_slot c).1 = false → (try_acquire_task_slot c).2 = c) ∧
    (try_acquire_task_slot MAX_CONCURRENT_TASKS).1 = false ∧
    (try_acquire_task_slot MAX_CONCURRENT_TASKS).2 = MAX_CONCURRENT_TASKS ∧
    (try_acquire_task_slot (release_task_slot MAX_CONCURRENT_TASKS)).1 = true := by
  refine ⟨?_, ?_, ?_, by decide, by decide, by decide⟩ <;>
    · unfold try_acquire_task_slot
      split_ifs with h <;> simp_all

/-- Evaluation of `try_acquire_task_slot_ceiling` at count 0. -/
theorem try_acquire_task_slot_ceiling_witness :
    (try_acquire_task_slot 0).1 = true ∧ (try_acquire_task_slot 0).2 = 0 + 1 :=
  ⟨(try_acquire_task_slot_ceiling 0).1.mpr (by decide),
   (try_acquire_task_slot_ceiling 0).2.1
     ((try_acquire_task_slot_ceiling 0).1.mpr (by decide))⟩

theorem run_scheduler_store_cons (store : Store) (tr : Nat → String) (q : PdfPage)
    (rest : List PdfPage) :
    run_scheduler_store store tr (q :: rest) =
      run_scheduler_store (save_page_translated store q.page_num (tr q.page_num)) tr rest :=
  rfl

/-- Pages outside the scheduled set keep their stored text. -/
theorem run_scheduler_store_untouched (tr : Nat → String) :
    ∀ (scheduled : List PdfPage) (store : Store) (n : Nat),
      (∀ p ∈ scheduled, p.page_num ≠ n) →
      run_scheduler_store store tr scheduled n = store n := by
  intro scheduled
  induction scheduled with
  | nil => intro store n _; rfl
  | cons q rest ih =>
    intro store n h
    rw [run_scheduler_store_cons,
      ih _ n (fun p hp => h p (List.mem_cons_of_mem _ hp))]
    have hq : n ≠ q.page_num := (h q (List.mem_cons_self _ _)).symm
    simp [save_page_translated, hq]

/-- Every scheduled page ends up with its freshly translated text when
page numbers are distinct. -/
theorem run_scheduler_store_mem (tr : Nat → String) :
    ∀ (scheduled : List PdfPage) (store : Store),
      (scheduled.map PdfPage.page_num).Nodup →
      ∀ p ∈ scheduled,
        run_scheduler_store store tr scheduled p.page_num = some (tr p.page_num) := by
  intro scheduled
  induction scheduled with
  | nil => simp
  | cons q rest ih =>
    intro store hnd p hp
    simp only [List.map_cons, List.nodup_cons] at hnd
    rw [run_scheduler_store_cons]
    rcases List.mem_cons.mp hp with rfl | hp'
    · have hdisj : ∀ r ∈ rest, r.page_num ≠ p.page_num := by
        intro r hr he
        exact hnd.1 (he ▸ List.mem_map_of_mem _ hr)
      rw [run_scheduler_store_untouched tr rest _ p.page_num hdisj]
      simp [save_page_translated]
    · exact ih _ hnd.2 p hp'

/-- Partition of a page list by checkpoint presence. -/
theorem filter_none_some_length (store : Store) :
    ∀ l : List PdfPage,
      (l.filter fun p => (store p.page_num).isNone).length +
        (l.filter fun p => (store p.page_num).isSome).length = l.length := by
  intro l
  induction l with
  | nil => simp
  | cons p rest ih =>
    cases h : store p.page_num <;> simp [List.filter_cons, h] <;> omega

/-- C1: on the retry path, with K of the N pages checkpointed as
translated, exactly the N−K pages whose `load_page_translated` is
absent are scheduled (the checkpointed ones are filtered out), the
scheduler run rewrites every scheduled page, and the stored text of
every checkpointed page stays byte-identical. -/
theorem retry_reprocesses_exactly_pending (store : Store) (N : Nat) (tr : Nat → String)
    (pages : List PdfPage) (hp : pages.map PdfPage.page_num = List.range' 1 N) :
    (pending_pages store pages).length +
      (pages.filter fun p => (load_page_translated store p.page_num).isSome).length = N ∧
    (∀ p, p ∈ pending_pages store pages ↔
      p ∈ pages ∧ load_page_translated store p.page_num = none) ∧
    (∀ n text, store n = some text →
      run_scheduler_store store tr (pending_pages store pages) n = some text) ∧
    (∀ p, p ∈ pending_pages store pages →
      run_scheduler_store store tr (pending_pages store pages) p.page_num =
        some (tr p.page_num)) := by
  have hlen : pages.length = N := by
    have := congrArg List.length hp
    simpa using this
  have hmem : ∀ p, p ∈ pending_pages store pages ↔
      p ∈ pages ∧ load_page_translated store p.page_num = none := by
    intro p
    simp [pending_pages, List.mem_filter, Option.isNone_iff_eq_none]
  refine ⟨?_, hmem, ?_, ?_⟩
  · rw [← hlen]
    exact filter_none_some_length store pages
  · intro n text hn
    rw [run_scheduler_store_untouched tr _ store n ?_]
    · exact hn
    · intro p hpmem he
      have := ((hmem p).mp hpmem).2
      rw [load_page_translated, he, hn] at this
      exact Option.noConfusion this
  · intro p hpmem
    refine run_scheduler_store_mem tr _ store ?_ p hpmem
    have hsub : ((pending_pages store pages).map PdfPage.page_num).Sublist
        (pages.map PdfPage.page_num) :=
      (List.filter_sublist pages).map PdfPage.page_num
    have hnd : (pages.map PdfPage.page_num).Nodup := by
      rw [hp]; exact List.nodup_range' _ _
    exact hnd.sublist hsub

/-- Evaluation of `retry_reprocesses_exactly_pending`: three pages,
page 1 checkpointed; the retry run leaves page 1 byte-identical and
schedules the other two. -/
theorem retry_reprocesses_exactly_pending_witness :
    run_scheduler_store c1store c1tr (pending_pages c1store c1pages) 1 = some "第一页" ∧
    (pending_pages c1store c1pages).length = 2 :=
  ⟨(retry_reprocesses_exactly_pending c1store 3 c1tr c1pages (by decide)).2.2.1
      1 "第一页" rfl,
   by decide⟩

theorem base_delay_of_cases (attempt : Nat) :
    base_delay_of attempt = 1000 ∨ base_delay_of attempt = 2000 ∨
      base_delay_of attempt = 4000 := by
  match attempt with
  | 0 => exact Or.inl rfl
  | 1 => exact Or.inr (Or.inl rfl)
  | 2 => exact Or.inr (Or.inr rfl)
  | (n + 3) =>
    refine Or.inr (Or.inr ?_)
    simp [base_delay_of, base_delays, List.getD_eq_default]

/-- One backoff delay lies in `base * [0.9, 1.1]`, hence above the
100 ms floor, for every admissible jitter draw. -/
theorem delay_ms_bounds (attempt draw : Nat) (h : draw ≤ 2 * jitter_range_of attempt) :
    base_delay_of attempt * 9 / 10 ≤ delay_ms attempt draw ∧
    delay_ms attempt draw ≤ base_delay_of attempt * 11 / 10 ∧
    100 ≤ delay_ms attempt draw := by
  rcases base_delay_of_cases attempt with hb | hb | hb <;>
    · unfold jitter_range_of at h
      unfold delay_ms jitter_range_of
      rw [hb] at h ⊢
      refine ⟨?_, ?_, ?_⟩ <;> omega

theorem withRetryGo_calls_length {T : Type} (f : Nat → ApiAttempt T) (jit : Nat → Nat)
    (m : Nat) : ∀ l : List Nat, (withRetryGo f jit m l).2.2.length ≤ l.length := by
  intro l
  induction l with
  | nil => simp [withRetryGo]
  | cons a rest ih =>
    cases hfa : f a with
    | ok t => simp [withRetryGo, hfa]
    | nonRetryable msg => simp [withRetryGo, hfa]
    | retryable msg =>
      by_cases ha : a = m
      · subst ha
        simp [withRetryGo, hfa]
      · simp only [withRetryGo, hfa]
        rw [if_neg ha]
        simpa using Nat.succ_le_succ ih

theorem withRetryGo_delays_length {T : Type} (f : Nat → ApiAttempt T) (jit : Nat → Nat)
    (m : Nat) : ∀ (len start : Nat), start + len = m + 1 →
      (withRetryGo f jit m (List.range' start len)).2.1.length ≤ len - 1 := by
  intro len
  induction len with
  | zero => intro start _; simp [List.range', withRetryGo]
  | succ k ih =>
    intro start h
    rw [List.range'_succ]
    cases hfa : f start with
    | ok t => simp [withRetryGo, hfa]
    | nonRetryable msg => simp [withRetryGo, hfa]
    | retryable msg =>
      by_cases hs : start = m
      · subst hs
        simp [withRetryGo, hfa]
      · simp only [withRetryGo, hfa]
        rw [if_neg hs]
        have hr := ih (start + 1) (by omega)
        simp only [List.length_cons]
        omega

theorem withRetryGo_delays_get {T : Type} (f : Nat → ApiAttempt T) (jit : Nat → Nat)
    (m : Nat) : ∀ (len start n d : Nat),
      ((withRetryGo f jit m (List.range' start len)).2.1).get? n = some d →
      d = delay_ms (start + n) (jit (start + n)) := by
  intro len
  induction len with
  | zero => intro start n d h; simp [List.range', withRetryGo] at h
  | succ k ih =>
    intro start n d h
    rw [List.range'_succ] at h
    cases hfa : f start with
    | ok t => simp [withRetryGo, hfa] at h
    | nonRetryable msg => simp [withRetryGo, hfa] at h
    | retryable msg =>
      by_cases hs : start = m
      · subst hs
        simp [withRetryGo, hfa] at h
      · simp only [withRetryGo, hfa] at h
        rw [if_neg hs] at h
        cases n with
        | zero =>
          simp at h
          rw [Nat.add_zero]
          exact h.symm
        | succ n' =>
          simp only [List.get?_cons_succ] at h
          have hrec := ih (start + 1) n' d h
          have harg : start + (n' + 1) = start + 1 + n' := by omega
          rw [harg]
          exact hrec

/-- The loop stops at the first `NonRetryable` attempt: the result is
that message and the invoked attempts are exactly `start..k`. -/
theorem withRetryGo_nonretryable {T : Type} (f : Nat → ApiAttempt T) (jit : Nat → Nat)
    (m : Nat) : ∀ (len start k : Nat) (msg : String),
      start ≤ k → k < start + len → k ≤ m →
      f k = ApiAttempt.nonRetryable msg →
      (∀ i, start ≤ i → i < k → ∃ s, f i = ApiAttempt.retryable s) →
      (withRetryGo f jit m (List.range' start len)).1 = Except.error msg ∧
      (withRetryGo f jit m (List.range' start len)).2.2 =
        List.range' start (k - start + 1) := by
  intro len
  induction len with
  | zero => intro start k msg h1 h2 _ _ _; omega
  | succ n ih =>
    intro start k msg h1 h2 hk hfk hall
    rw [List.range'_succ]
    by_cases hsk : start = k
    · subst hsk
      have hone : start - start + 1 = 1 := by omega
      simp [withRetryGo, hfk, hone, List.range']
    · have hlt : start < k := lt_of_le_of_ne h1 hsk
      obtain ⟨s, hfs⟩ := hall start le_rfl hlt
      have hsm : start ≠ m := by omega
      simp only [withRetryGo, hfs]
      rw [if_neg hsm]
      have hrec := ih (start + 1) k msg (by omega) (by omega) hk hfk
        (fun i hi1 hi2 => hall i (by omega) hi2)
      refine ⟨hrec.1, ?_⟩
      show start :: (withRetryGo f jit m (List.range' (start + 1) n)).2.2 = _
      rw [hrec.2]
      have hco : k - start + 1 = (k - (start + 1) + 1) + 1 := by omega
      rw [hco, List.range'_succ start (k - (start + 1) + 1) 1]

/-- When the final allowed attempt fails retryably after retryable
predecessors, the loop returns the last message annotated with the
retry count. -/
theorem withRetryGo_exhaust {T : Type} (f : Nat → ApiAttempt T) (jit : Nat → Nat)
    (m : Nat) : ∀ (len start : Nat) (msg : String),
      start + len = m + 1 → start ≤ m →
      f m = ApiAttempt.retryable msg →
      (∀ i, start ≤ i → i < m → ∃ s, f i = ApiAttempt.retryable s) →
      (withRetryGo f jit m (List.range' start len)).1 =
        Except.error (msg ++ " (已重试 " ++ toString m ++ " 次)") := by
  intro len
  induction len with
  | zero => intro start msg h1 h2 _ _; omega
  | succ n ih =>
    intro start msg hlen hsm hfm hall
    rw [List.range'_succ]
    by_cases hs : start = m
    · subst hs
      simp [withRetryGo, hfm]
    · have hlt : start < m := lt_of_le_of_ne hsm hs
      obtain ⟨s, hfs⟩ := hall start le_rfl hlt
      simp only [withRetryGo, hfs]
      rw [if_neg hs]
      exact ih (start + 1) msg (by omega) (by omega) hfm
        (fun i hi1 hi2 => hall i (by omega) hi2)

/-- C3: for every sequence of retryable failures and every admissible
jitter draw, the delay slept before the (n+1)-th attempt lies within
`base_delays[n] * [0.9, 1.1]` milliseconds (attempts beyond the array
reuse 4000), clamped to at least 100 ms; and at most `max_retries`
delays are ever slept — in particular none after the final allowed
attempt fails retryably. -/
theorem with_retry_backoff_bounds {T : Type} (f : Nat → ApiAttempt T) (jit : Nat → Nat)
    (max_retries : Nat) (hjit : ∀ n, jit n ≤ 2 * jitter_range_of n) :
    (with_retry f jit max_retries).2.1.length ≤ max_retries ∧
    ∀ n d, ((with_retry f jit max_retries).2.1).get? n = some d →
      base_delay_of n * 9 / 10 ≤ d ∧ d ≤ base_delay_of n * 11 / 10 ∧ 100 ≤ d := by
  constructor
  · have h := withRetryGo_delays_length f jit max_retries (max_retries + 1) 0 (by omega)
    simpa [with_retry, List.range_eq_range'] using h
  · intro n d h
    rw [with_retry, List.range_eq_range'] at h
    have hd := withRetryGo_delays_get f jit max_retries (max_retries + 1) 0 n d h
    rw [Nat.zero_add] at hd
    rw [hd]
    exact delay_ms_bounds n (jit n) (hjit n)

/-- Evaluation of `with_retry_backoff_bounds` on an always-retryable
operation with midpoint jitter draws: the first delay is exactly
1000 ms and within bounds. -/
theorem with_retry_backoff_bounds_witness :
    (with_retry c3f c3jit 3).2.1.length ≤ 3 ∧
    (base_delay_of 0 * 9 / 10 ≤ 1000 ∧ 1000 ≤ base_delay_of 0 * 11 / 10 ∧
      100 ≤ 1000) :=
  ⟨(with_retry_backoff_bounds c3f c3jit 3 (fun n => by simp [c3jit]; omega)).1,
   (with_retry_backoff_bounds c3f c3jit 3 (fun n => by simp [c3jit]; omega)).2 0 1000
     (by decide)⟩

/-- C4: `with_retry` invokes the wrapped operation at most
`1 + max_retries` times, and both call sites (`recognize_text`,
`translate_text`) pass `max_retries = 3`; a `NonRetryable` attempt
fails immediately with that message and the operation is never invoked
again (the invoked attempts are exactly `0..k`); after all
`1 + max_retries` attempts fail retryably it fails with the last
message annotated with the retry count. -/
theorem with_retry_attempt_budget {T : Type} (f : Nat → ApiAttempt T) (jit : Nat → Nat)
    (max_retries : Nat) :
    (recognize_text = TranslateAction.callApi 3 ∧
      ∀ text r, translate_text text = TranslateAction.callApi r → r = 3) ∧
    (with_retry f jit max_retries).2.2.length ≤ max_retries + 1 ∧
    (∀ k msg, k ≤ max_retries → f k = ApiAttempt.nonRetryable msg →
      (∀ i, i < k → ∃ s, f i = ApiAttempt.retryable s) →
      (with_retry f jit max_retries).1 = Except.error msg ∧
      (with_retry f jit max_retries).2.2 = List.range (k + 1)) ∧
    (∀ msg, f max_retries = ApiAttempt.retryable msg →
      (∀ i, i < max_retries → ∃ s, f i = ApiAttempt.retryable s) →
      (with_retry f jit max_retries).1 =
        Except.error (msg ++ " (已重试 " ++ toString max_retries ++ " 次)")) := by
  refine ⟨⟨rfl, ?_⟩, ?_, ?_, ?_⟩
  · intro text r h
    by_cases h1 : (rust_trim text).isEmpty
    · simp [translate_text, h1] at h
    · by_cases h2 : chinese_ratio_exceeds (rust_trim text)
      · simp [translate_text, h1, h2] at h
      · simp [translate_text, h1, h2] at h
        exact h.symm
  · have h := withRetryGo_calls_length f jit max_retries (List.range (max_retries + 1))
    simpa [with_retry] using h
  · intro k msg hk hfk hall
    have h := withRetryGo_nonretryable f jit max_retries (max_retries + 1) 0 k msg
      (by omega) (by omega) hk hfk (fun i _ hik => hall i hik)
    rw [with_retry, List.range_eq_range']
    refine ⟨h.1, ?_⟩
    rw [h.2, List.range_eq_range']
    congr 1
  · intro msg hfm hall
    have h := withRetryGo_exhaust f jit max_retries (max_retries + 1) 0 msg
      (by omega) (by omega) hfm (fun i _ hi => hall i hi)
    rw [with_retry, List.range_eq_range']
    exact h

/-- Evaluation of `with_retry_attempt_budget`: attempt 0 retryable,
attempt 1 permanent — the loop fails with the permanent message and
invokes exactly attempts 0 and 1. -/
theorem with_retry_attempt_budget_witness :
    (with_retry c4f c4jit 3).1 = Except.error "解析失败" ∧
    (with_retry c4f c4jit 3).2.2 = List.range 2 :=
  (with_retry_attempt_budget c4f c4jit 3).2.2.1 1 "解析失败" (by omega) (by decide)
    (fun i hi => ⟨"超时", by rw [Nat.lt_one_iff] at hi; subst hi; rfl⟩)

/-- C9: `translate_text` returns `Ok("")`, with no external call and no
retry, whenever the input is empty or consists only of whitespace
(trimmed input empty); and it returns the input text unchanged, with no
external call, whenever the Chinese-character ratio of the trimmed
input strictly exceeds 0.7. -/
theorem translate_text_short_circuit (text : String) :
    ((rust_trim text).isEmpty = true →
      translate_text text = TranslateAction.noCall "") ∧
    ((rust_trim text).isEmpty = false →
      (7 : ℚ) / 10 < (count_chinese_chars (rust_trim text) : ℚ) /
        (ratio_denominator (rust_trim text) : ℚ) →
      translate_text text = TranslateAction.noCall text) := by
  constructor
  · intro h
    simp [translate_text, h]
  · intro h hratio
    have hd1 : 1 ≤ ratio_denominator (rust_trim text) := Nat.le_max_right _ 1
    have hd : (0 : ℚ) < (ratio_denominator (rust_trim text) : ℚ) := by
      exact_mod_cast lt_of_lt_of_le zero_lt_one (by exact_mod_cast hd1)
    rw [div_lt_div_iff₀ (by norm_num) hd] at hratio
    have hnat : 7 * ratio_denominator (rust_trim text) <
        count_chinese_chars (rust_trim text) * 10 := by
      exact_mod_cast hratio
    have hb : chinese_ratio_exceeds (rust_trim text) = true := by
      simp only [chinese_ratio_exceeds, gt_iff_lt, decide_eq_true_eq]
      omega
    simp [translate_text, h, hb]

/-- Evaluation of `translate_text_short_circuit` on a whitespace input
and on a mostly-Chinese input (ratio 3/4). -/
theorem translate_text_short_circuit_witness :
    translate_text " \t" = TranslateAction.noCall "" ∧
    translate_text "你好吗a" = TranslateAction.noCall "你好吗a" := by
  constructor
  · exact (translate_text_short_circuit " \t").1 (by decide)
  · refine (translate_text_short_circuit "你好吗a").2 (by decide) ?_
    have hc : count_chinese_chars (rust_trim "你好吗a") = 3 := by decide
    have hd : ratio_denominator (rust_trim "你好吗a") = 4 := by decide
    rw [hc, hd]
    norm_num

/-- C6 counterexample: `cancel_task` sets the cancelled flag and the
status to `Error`, yet a subsequent `set_complete` — which never
re-checks the flag — transitions the task to `Complete` while the flag
is still set.  This interleaving is reachable in the program: the HTTP
cancel handler can run between the driver's final cancellation check
(main.rs line 163) and `set_complete` (line 175), a window containing
no further cancellation check. -/
theorem cancelled_then_complete_counterexample :
    get_cancelled (applyOps [RegOp.create "a.pdf" 0, RegOp.cancel 1] none) =
      some true ∧
    get_cancelled (applyOps [RegOp.create "a.pdf" 0, RegOp.cancel 1,
      RegOp.setComplete [37] 2] none) = some true ∧
    get_status (applyOps [RegOp.create "a.pdf" 0, RegOp.cancel 1,
      RegOp.setComplete [37] 2] none) = some TaskStatus.Complete :=
  ⟨rfl, rfl, rfl⟩

/-- C6 amended: once the cancelled flag is set, no registry operation
other than `create_task` (a wholesale `HashMap::insert` replacement of
the task) ever clears it, and a scheduler unit that observes the flag
at its pre-call check initiates no external recognition or translation
call; but the claim's "never transitions to Complete" part fails:
`set_complete` does not re-check the flag, so a cancellation landing
after the driver's final check still yields status `Complete`. -/
theorem cancellation_monotonicity_amended :
    (∀ (op : RegOp) (reg : Registry), (∀ fn t, op ≠ RegOp.create fn t) →
      get_cancelled reg = some true → get_cancelled (op.apply reg) = some true) ∧
    (∀ (page : PdfPage) (recog : String → Except String String),
      (ocr_unit true page recog).2 = false) ∧
    (∀ (page_num : Nat) (text : String) (trans : String → Except String String),
      (translate_unit true page_num text trans).2 = false) := by
  refine ⟨?_, fun page recog => rfl, fun page_num text trans => rfl⟩
  intro op reg hnc hc
  cases reg with
  | none => simp [get_cancelled] at hc
  | some task =>
    have hct : task.cancelled = true := by simpa [get_cancelled] using hc
    cases op with
    | create fn t => exact absurd rfl (hnc fn t)
    | cancel t =>
      simp only [RegOp.apply, cancel_task]
      split_ifs <;> simp [get_cancelled, hct]
    | tryStartRetry t =>
      simp only [RegOp.apply, try_start_retry]
      split_ifs <;> simp [get_cancelled, hct]
    | setRendering n t => simp [RegOp.apply, set_rendering, get_cancelled, hct]
    | setProcessing t => simp [RegOp.apply, set_processing, get_cancelled, hct]
    | setGenerating t => simp [RegOp.apply, set_generating, get_cancelled, hct]
    | setComplete pdf t => simp [RegOp.apply, set_complete, get_cancelled, hct]
    | setError msg t => simp [RegOp.apply, set_error, get_cancelled, hct]
    | addLog msg t => simp [RegOp.apply, add_log, get_cancelled, hct]
    | startPageOcr n t => simp [RegOp.apply, start_page_ocr, get_cancelled, hct]
    | finishPageOcr n c p t =>
      simp only [RegOp.apply, finish_page_ocr, update_progress]
      split_ifs <;> simp [get_cancelled, hct]
    | startPageTranslate n t =>
      simp [RegOp.apply, start_page_translate, get_cancelled, hct]
    | finishPageTranslate n c p t =>
      simp only [RegOp.apply, finish_page_translate, update_progress]
      split_ifs <;> simp [get_cancelled, hct]
    | setPageError n m => simp [RegOp.apply, set_page_error, get_cancelled, hct]
    | finishRetry => simp [RegOp.apply, finish_retry, get_cancelled, hct]
    | initRetryProgress c n =>
      simp only [RegOp.apply, init_retry_progress, update_progress]
      split_ifs <;> simp [get_cancelled, hct]

/-- Evaluation of `cancellation_monotonicity_amended` on a cancelled
task and a concrete unit. -/
theorem cancellation_monotonicity_amended_witness :
    get_cancelled ((RegOp.addLog "x" 1).apply (some c6task)) = some true ∧
    (ocr_unit true c6page c6recog).2 = false ∧
    (translate_unit true 1 "hello" c6trans).2 = false :=
  ⟨cancellation_monotonicity_amended.1 (RegOp.addLog "x" 1) (some c6task)
      (fun _ _ h => RegOp.noConfusion h) rfl,
   cancellation_monotonicity_amended.2.1 c6page c6recog,
   cancellation_monotonicity_amended.2.2 1 "hello" c6trans⟩

/-- Every registry operation preserves the invariant "status `Complete`
implies the final artifact is present": `set_complete` is the only
operation that sets status `Complete` and it stores the artifact, and
no operation ever clears `pdf_data`. -/
theorem step_preserves_artifact_inv (op : RegOp) (reg : Registry)
    (hinv : ∀ task, reg = some task →
      task.progress.status = TaskStatus.Complete → task.pdf_data.isSome = true) :
    ∀ task', op.apply reg = some task' →
      task'.progress.status = TaskStatus.Complete → task'.pdf_data.isSome = true := by
  intro task' happ hcomp
  cases reg with
  | none =>
    cases op <;>
      simp only [RegOp.apply, create_task, cancel_task, set_rendering, set_processing,
        set_generating, set_complete, set_error, add_log, start_page_ocr,
        finish_page_ocr, start_page_translate, finish_page_translate, set_page_error,
        try_start_retry, finish_retry, init_retry_progress, update_progress] at happ <;>
      first
        | exact Option.noConfusion happ
        | (obtain rfl := Option.some.inj happ; simp at hcomp)
  | some task =>
    have hbase := hinv task rfl
    cases op <;>
      (try simp only [RegOp.apply, create_task, cancel_task, set_rendering,
        set_processing, set_generating, set_complete, set_error, add_log,
        start_page_ocr, finish_page_ocr, start_page_translate, finish_page_translate,
        set_page_error, try_start_retry, finish_retry, init_retry_progress,
        update_progress] at happ) <;>
      (try split_ifs at happ) <;>
      (obtain rfl := Option.some.inj happ) <;>
      first
        | rfl
        | exact hbase hcomp
        | (simp at hcomp; done)

/-- C7 counterexample: `set_error` applied after `set_complete` sets
status to `Error` without clearing `pdf_data`, so the artifact is
present while the status is not `Complete`.  (`set_error` has no
terminal-state guard, unlike `cancel_task`.) -/
theorem artifact_iff_complete_counterexample :
    get_pdf_data (applyOps [RegOp.create "a.pdf" 0, RegOp.setComplete [9] 5,
      RegOp.setError "boom" 6] none) = some [9] ∧
    get_status (applyOps [RegOp.create "a.pdf" 0, RegOp.setComplete [9] 5,
      RegOp.setError "boom" 6] none) = some TaskStatus.Error :=
  ⟨rfl, rfl⟩

/-- C7 amended: for every sequence of registry operations starting from
`create_task`, status `Complete` implies the final artifact is present;
the converse direction of the original claim fails, since `set_error`
(or any stage setter) applied after `set_complete` changes the status
while leaving `pdf_data` in place. -/
theorem complete_implies_artifact (ops : List RegOp) :
    get_status (applyOps ops none) = some TaskStatus.Complete →
    (get_pdf_data (applyOps ops none)).isSome = true := by
  have key : ∀ (l : List RegOp) (reg : Registry),
      (∀ task, reg = some task →
        task.progress.status = TaskStatus.Complete → task.pdf_data.isSome = true) →
      ∀ task, applyOps l reg = some task →
        task.progress.status = TaskStatus.Complete → task.pdf_data.isSome = true := by
    intro l
    induction l with
    | nil => intro reg hinv; simpa [applyOps] using hinv
    | cons op rest ih =>
      intro reg hinv task happ hcomp
      exact ih (op.apply reg) (step_preserves_artifact_inv op reg hinv) task happ hcomp
  intro hst
  cases hreg : applyOps ops none with
  | none => rw [hreg] at hst; simp [get_status] at hst
  | some task =>
    rw [hreg] at hst
    have hc : task.progress.status = TaskStatus.Complete := by
      simpa [get_status] using hst
    have hres := key ops none (by intro t ht; exact absurd ht (by simp)) task hreg hc
    simpa [get_pdf_data] using hres

/-- Evaluation of `complete_implies_artifact` on a completing run. -/
theorem complete_implies_artifact_witness :
    (get_pdf_data (applyOps [RegOp.create "a.pdf" 0, RegOp.setComplete [7] 3]
      none)).isSome = true :=
  complete_implies_artifact [RegOp.create "a.pdf" 0, RegOp.setComplete [7] 3] rfl

set_option maxRecDepth 8192 in
/-- C8 counterexample: reachable via `create_task` plus 49 `add_log`
calls (log at the cap of 50); one `set_error` — which appends without
the cap check — leaves 51 entries, exceeding `MAX_LOGS`. -/
theorem log_cap_counterexample :
    log_count (applyOps (RegOp.create "a.pdf" 0 ::
      (List.replicate 49 (RegOp.addLog "x" 0) ++ [RegOp.setError "boom" 1]))
      none) = some (MAX_LOGS + 1) := by
  decide

/-- C8 amended: only `add_log` enforces the cap: starting from a log
within `MAX_LOGS` it yields `min (len + 1) MAX_LOGS` entries, evicting
the oldest entry first when the cap would be exceeded; the
stage-transition setters and `cancel_task` append without the check
and can exceed the cap. -/
theorem add_log_bounded (task : TaskData) (msg : String) (t : Nat)
    (h : task.progress.logs.length ≤ MAX_LOGS) :
    log_count (add_log (some task) msg t) =
      some (min (task.progress.logs.length + 1) MAX_LOGS) ∧
    (task.progress.logs.length = MAX_LOGS →
      add_log (some task) msg t = some { task with progress := { task.progress with
        logs := task.progress.logs.drop 1 ++ [{ ts := t, msg := msg }] } }) := by
  have h50 : MAX_LOGS = 50 := rfl
  rw [h50] at h
  constructor
  · simp only [add_log, log_count, h50, Option.some.injEq]
    split_ifs with hlen <;>
      · simp only [List.length_drop, List.length_append, List.length_singleton] at hlen ⊢
        omega
  · intro hlen
    rw [h50] at hlen
    simp only [add_log]
    split_ifs with hl
    · rw [@List.drop_append_of_le_length _ task.progress.logs
        [{ ts := t, msg := msg }] 1 (by omega)]
    · exfalso
      rw [h50] at hl
      simp only [List.length_append, List.length_singleton] at hl
      omega

/-- Evaluation of `add_log_bounded` on a task whose log sits at the
cap: `add_log` keeps it at `MAX_LOGS`. -/
theorem add_log_bounded_witness :
    log_count (add_log (some c8task) "y" 2) = some MAX_LOGS := by
  have h := (add_log_bounded c8task "y" 2 (by simp [c8task])).1
  simpa [c8task] using h

/-- C10: `load_all_translated_pages` returns exactly `total_pages`
strings in ascending page order `1..total_pages`, substituting `""`
for every page whose translated checkpoint is absent (an unreadable
file makes `fs::read_to_string(..).ok()` return `None`, i.e. absent in
the store model), so final assembly never fails on a missing
checkpoint. -/
theorem load_all_translated_pages_spec (store : Store) (N : Nat) :
    (load_all_translated_pages store N).length = N ∧
    ∀ i, i < N → (load_all_translated_pages store N).get? i =
      some ((store (i + 1)).getD "") := by
  constructor
  · simp [load_all_translated_pages]
  · intro i hi
    rw [List.get?_eq_getElem?]
    simp [load_all_translated_pages, load_page_translated, List.getElem?_map,
      List.getElem?_range', hi, Nat.add_comm]

/-- Evaluation of `load_all_translated_pages_spec` on a two-page store
with page 2 missing. -/
theorem load_all_translated_pages_spec_witness :
    (load_all_translated_pages c10store 2).length = 2 ∧
    (load_all_translated_pages c10store 2).get? 0 = some "甲" ∧
    (load_all_translated_pages c10store 2).get? 1 = some "" := by
  refine ⟨(load_all_translated_pages_spec c10store 2).1, ?_, ?_⟩
  · have h := (load_all_translated_pages_spec c10store 2).2 0 (by decide)
    simpa [c10store] using h
  · have h := (load_all_translated_pages_spec c10store 2).2 1 (by decide)
    simpa [c10store] using h

end PdfTrans
